import Mathlib

/-!
Verification of the catalystgo/healthcheck handler (`handler.go`) and the
database probe (`db` package) against their specification.

The Go code is embedded shallowly:

* A registered check (`type Check func() error`) is characterised by its
  observable behaviour when invoked: it returns `nil`, returns a non-nil
  error carrying a message, or terminates abnormally (panics) with some
  value.  This is `CheckBehavior`.
* Go maps `map[string]Check` / `map[string]string` become association lists
  with assignment-overwrites semantics (`setCheck` / `setResult`); the Go
  map invariant "keys are unique" is carried as a `Nodup` hypothesis where a
  theorem needs it.
* `collectChecks` launches one goroutine per check and drains a rendezvous
  channel into `resultsOut`.  Since check names are unique within one map,
  the final contents of `resultsOut`, the final status and the set of error
  handler invocations do not depend on the drain order, so the loop is
  rendered as structural recursion over the entries (`runChecks`).
* The error-handler binding (`s.errorHandler`) is modelled by its presence
  (`hasErrorHandler : Bool`) together with the list of `(name, errorMessage)`
  invocations the evaluation performs.
* The panic-recovery race in `collectChecks` (the deferred `wg.Done()` runs
  before the deferred send on `results`) is modelled separately as a small
  labelled transition system (`PanicRaceState` / `PanicRaceStep`) faithful
  to Go channel/WaitGroup semantics for that code path.
-/

set_option autoImplicit false

namespace Healthcheck

/-- Behaviour of one registered check (`type Check func() error` in
`handler.go`) when it is invoked during an evaluation pass: the call returns
`nil` (`ok`), returns a non-nil error whose `Error()` string is `msg`
(`fails msg`), or terminates abnormally with panic value rendered by `%v` as
`val` (`panics val`). -/
inductive CheckBehavior where
  | ok : CheckBehavior
  | fails (msg : String) : CheckBehavior
  | panics (val : String) : CheckBehavior
deriving DecidableEq, Repr

/-- `map[string]Check` of `handler.go`, as an association list. -/
abbrev CheckMap := List (String × CheckBehavior)

/-- `map[string]string` (the `resultsOut` / `checkResults` maps of
`handler.go`), as an association list. -/
abbrev ResultMap := List (String × String)

/-- `successCheckerResultString = "OK"` (`handler.go`). -/
def successCheckerResultString : String := "OK"

/-- `http.StatusOK`. -/
def statusOK : Nat := 200

/-- `http.StatusServiceUnavailable`. -/
def statusServiceUnavailable : Nat := 503

/-- `http.StatusMethodNotAllowed`. -/
def statusMethodNotAllowed : Nat := 405

/-- Go map assignment `m[name] = val` on a `map[string]string`: overwrite the
entry if the key is present, otherwise add it. -/
def setResult : ResultMap → String → String → ResultMap
  | [], name, val => [(name, val)]
  | (k, v) :: rest, name, val =>
      if k = name then (k, val) :: rest else (k, v) :: setResult rest name val

/-- Go map assignment `m[name] = check` on a `map[string]Check`. -/
def setCheck : CheckMap → String → CheckBehavior → CheckMap
  | [], name, c => [(name, c)]
  | (k, v) :: rest, name, c =>
      if k = name then (k, c) :: rest else (k, v) :: setCheck rest name c

/-- Go map lookup `m[k]` (present entries only) on a `map[string]string`. -/
def lookupResult (m : ResultMap) (k : String) : Option String :=
  (m.find? (fun p => p.1 = k)).map Prod.snd

/-- Go map lookup `m[k]` (present entries only) on a `map[string]Check`. -/
def lookupCheck (m : CheckMap) (k : String) : Option CheckBehavior :=
  (m.find? (fun p => p.1 = k)).map Prod.snd

/-- The outcome string one goroutine of `collectChecks` publishes for a
check: `"OK"` when `check()` returns nil, the error message when it returns
an error, and `fmt.Sprintf("checker panic recovered: %v", r)` when the
deferred `recover()` catches a panic. -/
def checkResultString : CheckBehavior → String
  | .ok => successCheckerResultString
  | .fails msg => msg
  | .panics val => "checker panic recovered: " ++ val

/-- The error message passed to `s.errorHandler(name, err)` for one check,
when an invocation happens at all: the check's own error message on an
explicit failure, `"checker panic recovered: %v"` on a recovered panic, and
no invocation for a succeeding check. -/
def checkErrorMessage : CheckBehavior → Option String
  | .ok => none
  | .fails msg => some msg
  | .panics val => some ("checker panic recovered: " ++ val)

/-- The per-check loop of `collectChecks` (`handler.go`): each check
publishes `(name, outcomeString)`; the drain loop stores it with
`resultsOut[res.name] = res.result` and flips the status to 503 whenever
`res.result != successCheckerResultString`; a non-nil `s.errorHandler` is
invoked with `(name, err)` for every failing or panicking check.  The
accumulator threads (status, resultsOut, errorHandler invocations). -/
def runChecks (hasErrorHandler : Bool) :
    CheckMap → Nat → ResultMap → List (String × String) →
      Nat × ResultMap × List (String × String)
  | [], status, results, calls => (status, results, calls)
  | (name, check) :: rest, status, results, calls =>
      let res := checkResultString check
      runChecks hasErrorHandler rest
        (if res ≠ successCheckerResultString then statusServiceUnavailable else status)
        (setResult results name res)
        (calls ++ (match hasErrorHandler, checkErrorMessage check with
                   | true, some e => [(name, e)]
                   | _, _ => []))

/-- `collectChecks` (`handler.go`): status starts at `http.StatusOK`; an
empty check map returns immediately, leaving `resultsOut` untouched;
otherwise every check runs and is drained into `resultsOut`. -/
def collectChecks (hasErrorHandler : Bool) (checks : CheckMap)
    (resultsOut : ResultMap) : Nat × ResultMap × List (String × String) :=
  if checks.isEmpty then (statusOK, resultsOut, [])
  else runChecks hasErrorHandler checks statusOK resultsOut []

/-- The loop of `handle` over its variadic check maps: each map is passed to
`collectChecks` with the shared `checkResults` map; a non-OK status from any
pass overwrites the overall status. -/
def evalCheckMaps (hasErrorHandler : Bool) :
    List CheckMap → Nat → ResultMap → List (String × String) →
      Nat × ResultMap × List (String × String)
  | [], status, results, calls => (status, results, calls)
  | m :: rest, status, results, calls =>
      let r := collectChecks hasErrorHandler m results
      evalCheckMaps hasErrorHandler rest
        (if r.1 ≠ statusOK then r.1 else status) r.2.1 (calls ++ r.2.2)

/-- An incoming HTTP request, reduced to the parts `handle` inspects:
`r.Method` and the parsed URL query (`r.URL.Query()`, an association of
parameter names to their values in order of appearance). -/
structure Request where
  method : String
  query : List (String × List String)
deriving DecidableEq, Repr

/-- `r.URL.Query().Get(key)`: the first value associated with `key`, or the
empty string if there is none. -/
def queryGet (q : List (String × List String)) (key : String) : String :=
  match q.find? (fun p => p.1 = key) with
  | some (_, v :: _) => v
  | _ => ""

/-- An HTTP response, reduced to what `handle` produces: status code,
response headers, body bytes. -/
structure Response where
  status : Nat
  headers : List (String × String)
  body : String
deriving DecidableEq, Repr

/-- `http.Error(w, msg, code)` from Go's net/http: sets
`Content-Type: text/plain; charset=utf-8` and
`X-Content-Type-Options: nosniff`, writes the status code and the message
followed by a newline. -/
def httpError (msg : String) (code : Nat) : Response :=
  { status := code
    headers := [("Content-Type", "text/plain; charset=utf-8"),
                ("X-Content-Type-Options", "nosniff")]
    body := msg ++ "\n" }

/-- The four headers `handle` sets on the GET path before writing the
status. -/
def handleHeaders : List (String × String) :=
  [("Content-Type", "application/json; charset=utf-8"),
   ("Cache-Control", "no-cache, no-store, must-revalidate"),
   ("Pragma", "no-cache"),
   ("Expires", "0")]

/-- Insert a key into a sorted list of keys (ascending byte order), for
`encodeJSONObject`. -/
def insertKeySorted (x : String) : List String → List String
  | [] => [x]
  | y :: ys => if x ≤ y then x :: y :: ys else y :: insertKeySorted x ys

/-- Sort a list of keys ascending, for `encodeJSONObject`: Go's
`encoding/json` marshals a `map[string]string` with its keys sorted. -/
def sortKeys : List String → List String
  | [] => []
  | x :: xs => insertKeySorted x (sortKeys xs)

/-- Escape one character the way Go's `encoding/json` encoder (with HTML
escaping, the `json.NewEncoder` default) escapes it inside a string
literal. -/
def escapeJSONChar (c : Char) : String :=
  if c = '"' then "\\\""
  else if c = '\\' then "\\\\"
  else if c = '\n' then "\\n"
  else if c = '\r' then "\\r"
  else if c = '\t' then "\\t"
  else if c = '<' then "\\u003c"
  else if c = '>' then "\\u003e"
  else if c = '&' then "\\u0026"
  else String.singleton c

/-- Escape a string for a JSON string literal as Go's `encoding/json`
does. -/
def escapeJSONString (s : String) : String :=
  String.join (s.toList.map escapeJSONChar)

/-- `json.NewEncoder(w)` with `SetIndent("", "    ")` applied to a
`map[string]string`: keys sorted, four-space indentation, trailing newline
from `Encoder.Encode`; the empty map encodes as `"\x7b\x7d\n"`. -/
def encodeJSONObject (m : ResultMap) : String :=
  let keys := sortKeys (m.map Prod.fst)
  if keys.isEmpty then "\x7b\x7d\n"
  else
    "\x7b\n" ++
    String.intercalate ",\n"
      (keys.map (fun k =>
        "    \"" ++ escapeJSONString k ++ "\": \"" ++
          escapeJSONString ((lookupResult m k).getD "") ++ "\"")) ++
    "\n\x7d\n"

/-- `handle` (`handler.go`): reject non-GET with `http.Error`; otherwise run
`collectChecks` over every supplied map into one fresh `checkResults` map,
set the four response headers, write the status, and write `"\x7b\x7d\n"`
unless the query sets `full=1`, in which case write the indented JSON
encoding of `checkResults`.  Returns the response together with the list of
error-handler invocations the evaluation performed. -/
def handle (hasErrorHandler : Bool) (req : Request) (checks : List CheckMap) :
    Response × List (String × String) :=
  if req.method ≠ "GET" then
    (httpError "method not allowed" statusMethodNotAllowed, [])
  else
    let r := evalCheckMaps hasErrorHandler checks statusOK [] []
    let body :=
      if queryGet req.query "full" ≠ "1" then "\x7b\x7d\n"
      else encodeJSONObject r.2.1
    ({ status := r.1, headers := handleHeaders, body := body }, r.2.2)

/-- `basicHandler` (`handler.go`): the two check registries and the
error-handler binding (modelled by its presence). -/
structure basicHandler where
  livenessChecks : CheckMap
  readinessChecks : CheckMap
  hasErrorHandler : Bool
deriving DecidableEq, Repr

/-- `NewHandler()`: both registries start empty, no error handler. -/
def NewHandler : basicHandler :=
  { livenessChecks := [], readinessChecks := [], hasErrorHandler := false }

/-- `AddLivenessCheck`: `s.livenessChecks[name] = check` under the lock. -/
def AddLivenessCheck (s : basicHandler) (name : String) (check : CheckBehavior) :
    basicHandler :=
  { s with livenessChecks := setCheck s.livenessChecks name check }

/-- `AddReadinessCheck`: `s.readinessChecks[name] = check` under the lock. -/
def AddReadinessCheck (s : basicHandler) (name : String) (check : CheckBehavior) :
    basicHandler :=
  { s with readinessChecks := setCheck s.readinessChecks name check }

/-- `AddCheckErrorHandler`: bind the callback. -/
def AddCheckErrorHandler (s : basicHandler) : basicHandler :=
  { s with hasErrorHandler := true }

/-- `LiveEndpoint`: `s.handle(w, r, s.livenessChecks)`. -/
def LiveEndpoint (s : basicHandler) (req : Request) :
    Response × List (String × String) :=
  handle s.hasErrorHandler req [s.livenessChecks]

/-- `ReadyEndpoint`: `s.handle(w, r, s.readinessChecks, s.livenessChecks)`. -/
def ReadyEndpoint (s : basicHandler) (req : Request) :
    Response × List (String × String) :=
  handle s.hasErrorHandler req [s.readinessChecks, s.livenessChecks]

/-- `LiveEndpoint` in explicit state-passing form: the method reads
`s.livenessChecks` and `s.errorHandler` and assigns no field of `s`, so the
state it hands back is the state it received. -/
def LiveEndpointSt (s : basicHandler) (req : Request) :
    (Response × List (String × String)) × basicHandler :=
  (LiveEndpoint s req, s)

/-- `ReadyEndpoint` in explicit state-passing form: the method reads
`s.readinessChecks`, `s.livenessChecks` and `s.errorHandler` and assigns no
field of `s`. -/
def ReadyEndpointSt (s : basicHandler) (req : Request) :
    (Response × List (String × String)) × basicHandler :=
  (ReadyEndpoint s req, s)

/-- The behaviour stored under the LAST entry with key `k` in an
association list (the one whose `setResult`/`setCheck` write survives when
the list is replayed in order). -/
def lastEntry? (cs : CheckMap) (k : String) : Option CheckBehavior :=
  (cs.reverse.find? (fun e => e.1 = k)).map Prod.snd

/-- The error-handler invocations one `collectChecks` pass over `cs`
performs when a handler is registered: one `(name, message)` per failing or
panicking entry, none per succeeding entry. -/
def erCalls (cs : CheckMap) : List (String × String) :=
  cs.filterMap (fun e => (checkErrorMessage e.2).map (fun m => (e.1, m)))

/-- Whether some entry of `cs` publishes a non-`"OK"` outcome string (the
condition under which the drain loop of `collectChecks` flips the status to
503). -/
def hasFailure (cs : CheckMap) : Bool :=
  cs.any (fun e => checkResultString e.2 != successCheckerResultString)

/-- The behaviours whose published outcome string differs from `"OK"`: an
abnormal termination, or an explicit failure whose error message is not
itself the success string `"OK"`. -/
def countsAsFailure (b : CheckBehavior) : Prop :=
  (∃ v, b = CheckBehavior.panics v) ∨
  (∃ msg, b = CheckBehavior.fails msg ∧ msg ≠ successCheckerResultString)

/-- The check registered for name `n` in the latest-processed map of `ms`
that contains `n` at all. -/
def lastRegistered (ms : List CheckMap) (n : String) : Option CheckBehavior :=
  ms.reverse.findSome? (fun m => lookupCheck m n)

/-!
## The panic-recovery race in `collectChecks`

In `handler.go`, the goroutine launched for a check runs

```
defer func() {
    wg.Done()
    if r := recover(); r != nil {
        results <- result{...}
        ...
    }
}()
```

while a separate goroutine runs `wg.Wait(); close(results)`.  On the panic
path the deferred function decrements the wait group *before* it sends the
recovered outcome on `results`.  Once the counter reaches zero the closer
goroutine may run `close(results)` before the deferred send executes; per
Go semantics a send on a closed channel (including a send blocked at the
moment of the close) raises an unrecoverable run-time panic in the sending
goroutine, which terminates the whole process.  The transition system below
models exactly this code path for a check set whose single check panics:
the drain loop (`for res := range results`) is abstracted as "a send on the
still-open channel is consumed" (`sendDelivered`). -/

/-- Joint state of the recovered checker goroutine and the
`wg.Wait(); close(results)` goroutine of `collectChecks`, for one panicking
check.  `checkerLine`: 0 = about to run `wg.Done()`, 1 = about to send on
`results`, 2 = finished.  `closerLine`: 0 = blocked in `wg.Wait()`,
1 = `close(results)` done.  `senderCrashed` records that the deferred send
hit the closed channel and panicked (unrecovered: the enclosing `recover()`
has already run). -/
structure PanicRaceState where
  wgOutstanding : Nat
  resultsClosed : Bool
  checkerLine : Nat
  closerLine : Nat
  senderCrashed : Bool
deriving DecidableEq, Repr

/-- Initial state: one check launched (`wg.Add(1)`), channel open, checker
goroutine has panicked, been recovered, and is entering the deferred
function body. -/
def panicRaceInit : PanicRaceState :=
  { wgOutstanding := 1, resultsClosed := false, checkerLine := 0,
    closerLine := 0, senderCrashed := false }

/-- One scheduler step of the two goroutines of `collectChecks` on the
panic path. -/
inductive PanicRaceStep : PanicRaceState → PanicRaceState → Prop where
  /-- The deferred function runs `wg.Done()`. -/
  | wgDone (s : PanicRaceState) (h : s.checkerLine = 0) :
      PanicRaceStep s { s with wgOutstanding := s.wgOutstanding - 1, checkerLine := 1 }
  /-- `wg.Wait()` returns (counter at zero) and the closer goroutine runs
  `close(results)`. -/
  | closeResults (s : PanicRaceState) (hc : s.closerLine = 0)
      (hw : s.wgOutstanding = 0) :
      PanicRaceStep s { s with resultsClosed := true, closerLine := 1 }
  /-- The deferred send `results <- result{...}` rendezvouses with the
  drain loop while the channel is still open. -/
  | sendDelivered (s : PanicRaceState) (h : s.checkerLine = 1)
      (hcl : s.resultsClosed = false) :
      PanicRaceStep s { s with checkerLine := 2 }
  /-- The deferred send executes against the already-closed channel: the
  sending goroutine panics ("send on closed channel") with no surrounding
  `recover`, killing the process. -/
  | sendOnClosed (s : PanicRaceState) (h : s.checkerLine = 1)
      (hcl : s.resultsClosed = true) :
      PanicRaceStep s { s with checkerLine := 2, senderCrashed := true }

/-- Reachability under the scheduler. -/
def PanicRaceReaches : PanicRaceState → PanicRaceState → Prop :=
  Relation.ReflTransGen PanicRaceStep

end Healthcheck

namespace HealthcheckDB

open Healthcheck

/-- Observable behaviour of `database.PingContext(ctx)` for a non-nil
`*sql.DB` handle: nil error or an error with a message. -/
inductive PingBehavior where
  | ok : PingBehavior
  | err (msg : String) : PingBehavior
deriving DecidableEq, Repr

/-- `DatabasePingCheck(database, timeout)` from the `db` package, applied to
its argument and then invoked: the closure builds a context with the given
timeout, returns the error `"database is nil"` when `database == nil`, and
otherwise returns the result of `database.PingContext(ctx)`.  A nil handle
is modelled as `none`, a live handle by its ping behaviour. -/
def DatabasePingCheck (database : Option PingBehavior) (_timeout : Nat) :
    CheckBehavior :=
  match database with
  | none => .fails "database is nil"
  | some .ok => .ok
  | some (.err m) => .fails m

end HealthcheckDB

namespace Healthcheck

theorem panics_resultString_ne (v : String) :
    checkResultString (CheckBehavior.panics v) ≠ successCheckerResultString := by
  intro h
  simp only [checkResultString, successCheckerResultString] at h
  have hl := congrArg String.length h
  rw [String.length_append] at hl
  have h25 : ("checker panic recovered: " : String).length = 25 := rfl
  have h2 : ("OK" : String).length = 2 := rfl
  omega

theorem countsAsFailure_iff (b : CheckBehavior) :
    countsAsFailure b ↔ checkResultString b ≠ successCheckerResultString := by
  cases b with
  | ok => simp [countsAsFailure, checkResultString]
  | fails m => simp [countsAsFailure, checkResultString]
  | panics v => simpa [countsAsFailure] using panics_resultString_ne v

theorem lookupResult_setResult_self (r : ResultMap) (n v : String) :
    lookupResult (setResult r n v) n = some v := by
  induction r with
  | nil => simp [setResult, lookupResult]
  | cons p rest ih =>
      obtain ⟨k, w⟩ := p
      by_cases h : k = n
      · subst h
        simp [setResult, lookupResult]
      · simpa [setResult, lookupResult, h] using ih

theorem lookupResult_setResult_ne (r : ResultMap) (n v a : String) (h : a ≠ n) :
    lookupResult (setResult r n v) a = lookupResult r a := by
  have hna : n ≠ a := Ne.symm h
  induction r with
  | nil => simp [setResult, lookupResult, hna]
  | cons p rest ih =>
      obtain ⟨k, w⟩ := p
      by_cases hk : k = n
      · subst hk
        simp [setResult, lookupResult, hna]
      · by_cases hka : k = a
        · subst hka
          simp [setResult, hk, lookupResult]
        · simpa [setResult, lookupResult, hk, hka] using ih

theorem keys_setResult (r : ResultMap) (n v a : String) :
    a ∈ (setResult r n v).map Prod.fst ↔ a ∈ r.map Prod.fst ∨ a = n := by
  induction r with
  | nil => simp [setResult]
  | cons p rest ih =>
      obtain ⟨k, w⟩ := p
      by_cases hk : k = n
      · subst hk
        simp [setResult]
        tauto
      · simp [setResult, hk, ih]
        tauto

theorem nodup_keys_setResult (r : ResultMap) (n v : String)
    (h : (r.map Prod.fst).Nodup) : ((setResult r n v).map Prod.fst).Nodup := by
  induction r with
  | nil => simp [setResult]
  | cons p rest ih =>
      obtain ⟨k, w⟩ := p
      simp only [List.map_cons, List.nodup_cons] at h
      by_cases hk : k = n
      · subst hk
        simp only [setResult, if_pos rfl]
        simpa [List.nodup_cons] using h
      · simp only [setResult, List.map_cons]
        rw [if_neg hk]
        simp only [List.map_cons, List.nodup_cons]
        refine ⟨?_, ih h.2⟩
        intro hmem
        exact h.1 (((keys_setResult rest n v k).mp hmem).resolve_right hk)

theorem runChecks_status_of_unavailable (hh : Bool) (cs : CheckMap) (st : Nat)
    (r : ResultMap) (c : List (String × String))
    (h : st = statusServiceUnavailable) :
    (runChecks hh cs st r c).1 = statusServiceUnavailable := by
  induction cs generalizing st r c with
  | nil => simpa [runChecks] using h
  | cons e rest ih =>
      obtain ⟨n, b⟩ := e
      simp only [runChecks]
      apply ih
      split <;> simp [h]

theorem runChecks_status_of_fail (hh : Bool) (cs : CheckMap) (st : Nat)
    (r : ResultMap) (c : List (String × String))
    (h : ∃ e ∈ cs, checkResultString e.2 ≠ successCheckerResultString) :
    (runChecks hh cs st r c).1 = statusServiceUnavailable := by
  induction cs generalizing st r c with
  | nil => simp at h
  | cons e rest ih =>
      obtain ⟨n, b⟩ := e
      by_cases hb : checkResultString b = successCheckerResultString
      · have h' : ∃ e ∈ rest, checkResultString e.2 ≠ successCheckerResultString := by
          rcases h with ⟨e, he, hne⟩
          rcases List.mem_cons.mp he with rfl | hmem
          · exact absurd hb hne
          · exact ⟨e, hmem, hne⟩
        simp only [runChecks]
        exact ih _ _ _ h'
      · simp only [runChecks]
        apply runChecks_status_of_unavailable
        simp [hb]

theorem runChecks_status_of_ok (hh : Bool) (cs : CheckMap) (st : Nat)
    (r : ResultMap) (c : List (String × String))
    (h : ∀ e ∈ cs, checkResultString e.2 = successCheckerResultString) :
    (runChecks hh cs st r c).1 = st := by
  induction cs generalizing st r c with
  | nil => simp [runChecks]
  | cons e rest ih =>
      obtain ⟨n, b⟩ := e
      have hb : checkResultString b = successCheckerResultString :=
        h (n, b) (List.mem_cons_self _ _)
      simp only [runChecks]
      rw [if_neg (by simpa using hb)]
      exact ih _ _ _ (fun e he => h e (List.mem_cons_of_mem _ he))

theorem runChecks_results_indep (hh hh' : Bool) (cs : CheckMap) (st st' : Nat)
    (r : ResultMap) (c c' : List (String × String)) :
    (runChecks hh cs st r c).2.1 = (runChecks hh' cs st' r c').2.1 := by
  induction cs generalizing st st' r c c' with
  | nil => simp [runChecks]
  | cons e rest ih =>
      obtain ⟨n, b⟩ := e
      simp only [runChecks]
      exact ih _ _ _ _ _

theorem erCalls_cons (n : String) (b : CheckBehavior) (rest : CheckMap) :
    erCalls ((n, b) :: rest) =
      (match checkErrorMessage b with
       | some m => [(n, m)]
       | none => []) ++ erCalls rest := by
  cases hb : checkErrorMessage b <;> simp [erCalls, List.filterMap_cons, hb]

theorem runChecks_calls (hh : Bool) (cs : CheckMap) (st : Nat) (r : ResultMap)
    (c : List (String × String)) :
    (runChecks hh cs st r c).2.2 = c ++ (if hh then erCalls cs else []) := by
  induction cs generalizing st r c with
  | nil => simp [runChecks, erCalls]
  | cons e rest ih =>
      obtain ⟨n, b⟩ := e
      simp only [runChecks]
      rw [ih]
      cases hh with
      | false => simp
      | true =>
          cases hb : checkErrorMessage b <;> simp [erCalls_cons, hb]

theorem lastEntry?_nil (k : String) : lastEntry? [] k = none := rfl

theorem lastEntry?_cons (n : String) (b : CheckBehavior) (rest : CheckMap)
    (k : String) :
    lastEntry? ((n, b) :: rest) k =
      (lastEntry? rest k).or (if n = k then some b else none) := by
  simp only [lastEntry?, List.reverse_cons, List.find?_append]
  cases hfind : List.find? (fun e => e.1 = k) rest.reverse with
  | none =>
      simp only [hfind, Option.or, Option.map]
      by_cases hk : n = k
      · simp [List.find?, hk]
      · simp [List.find?, hk]
  | some e => simp [hfind, Option.or]

theorem runChecks_lookup (hh : Bool) (cs : CheckMap) (st : Nat) (r : ResultMap)
    (c : List (String × String)) (k : String) :
    lookupResult (runChecks hh cs st r c).2.1 k =
      ((lastEntry? cs k).map checkResultString).or (lookupResult r k) := by
  induction cs generalizing st r c with
  | nil => simp [runChecks, lastEntry?_nil]
  | cons e rest ih =>
      obtain ⟨n, b⟩ := e
      simp only [runChecks]
      rw [ih, lastEntry?_cons]
      cases hlast : lastEntry? rest k with
      | some b' => simp
      | none =>
          by_cases hk : n = k
          · subst hk
            simp [lookupResult_setResult_self]
          · simp [hk, lookupResult_setResult_ne _ _ _ _ (Ne.symm hk)]

theorem runChecks_keys_mem (hh : Bool) (cs : CheckMap) (st : Nat) (r : ResultMap)
    (c : List (String × String)) (a : String) :
    (a ∈ (runChecks hh cs st r c).2.1.map Prod.fst ↔
      a ∈ r.map Prod.fst ∨ a ∈ cs.map Prod.fst) := by
  induction cs generalizing st r c with
  | nil => simp [runChecks]
  | cons e rest ih =>
      obtain ⟨n, b⟩ := e
      simp only [runChecks]
      rw [ih]
      rw [keys_setResult]
      simp only [List.map_cons, List.mem_cons]
      tauto

theorem runChecks_keys_nodup (hh : Bool) (cs : CheckMap) (st : Nat)
    (r : ResultMap) (c : List (String × String))
    (h : (r.map Prod.fst).Nodup) :
    ((runChecks hh cs st r c).2.1.map Prod.fst).Nodup := by
  induction cs generalizing st r c with
  | nil => simpa [runChecks] using h
  | cons e rest ih =>
      obtain ⟨n, b⟩ := e
      simp only [runChecks]
      exact ih _ _ _ (nodup_keys_setResult _ _ _ h)

theorem collectChecks_eq_runChecks (hh : Bool) (cs : CheckMap) (r : ResultMap) :
    collectChecks hh cs r = runChecks hh cs statusOK r [] := by
  cases cs with
  | nil => simp [collectChecks, runChecks]
  | cons e rest => simp [collectChecks]

theorem runChecks_append (hh : Bool) (xs ys : CheckMap) (st : Nat)
    (r : ResultMap) (c : List (String × String)) :
    runChecks hh (xs ++ ys) st r c =
      runChecks hh ys (runChecks hh xs st r c).1 (runChecks hh xs st r c).2.1
        (runChecks hh xs st r c).2.2 := by
  induction xs generalizing st r c with
  | nil => simp [runChecks]
  | cons e rest ih =>
      obtain ⟨n, b⟩ := e
      simp only [List.cons_append, runChecks]
      exact ih _ _ _

theorem evalCheckMaps_eq_runChecks (hh : Bool) (ms : List CheckMap) (st : Nat)
    (r : ResultMap) (c : List (String × String)) :
    evalCheckMaps hh ms st r c = runChecks hh ms.flatten st r c := by
  induction ms generalizing st r c with
  | nil => simp [evalCheckMaps, runChecks]
  | cons m rest ih =>
      simp only [evalCheckMaps, List.flatten_cons]
      rw [collectChecks_eq_runChecks, ih, runChecks_append]
      have hres : (runChecks hh m statusOK r []).2.1 =
          (runChecks hh m st r c).2.1 := runChecks_results_indep hh hh m _ _ r _ _
      have hcalls : c ++ (runChecks hh m statusOK r []).2.2 =
          (runChecks hh m st r c).2.2 := by
        rw [runChecks_calls, runChecks_calls]
        simp
      have hstat : (if (runChecks hh m statusOK r []).1 ≠ statusOK
            then (runChecks hh m statusOK r []).1 else st) =
          (runChecks hh m st r c).1 := by
        by_cases hfail : ∃ e ∈ m, checkResultString e.2 ≠ successCheckerResultString
        · rw [runChecks_status_of_fail hh m statusOK r [] hfail,
              runChecks_status_of_fail hh m st r c hfail]
          simp [statusServiceUnavailable, statusOK]
        · push_neg at hfail
          rw [runChecks_status_of_ok hh m statusOK r [] hfail,
              runChecks_status_of_ok hh m st r c hfail]
          simp
      rw [hres, hcalls, hstat]

theorem runChecks_status_indep (hh hh' : Bool) (cs : CheckMap) (st : Nat)
    (r r' : ResultMap) (c c' : List (String × String)) :
    (runChecks hh cs st r c).1 = (runChecks hh' cs st r' c').1 := by
  by_cases hfail : ∃ e ∈ cs, checkResultString e.2 ≠ successCheckerResultString
  · rw [runChecks_status_of_fail hh cs st r c hfail,
        runChecks_status_of_fail hh' cs st r' c' hfail]
  · push_neg at hfail
    rw [runChecks_status_of_ok hh cs st r c hfail,
        runChecks_status_of_ok hh' cs st r' c' hfail]

theorem lookupCheck_eq_none_of_not_mem (m : CheckMap) (k : String)
    (h : k ∉ m.map Prod.fst) : lookupCheck m k = none := by
  induction m with
  | nil => rfl
  | cons e rest ih =>
      obtain ⟨n, b⟩ := e
      simp only [List.map_cons, List.mem_cons] at h
      push_neg at h
      simpa [lookupCheck, List.find?_cons, Ne.symm h.1] using ih h.2

theorem lastEntry?_eq_lookupCheck (m : CheckMap)
    (h : (m.map Prod.fst).Nodup) (k : String) :
    lastEntry? m k = lookupCheck m k := by
  induction m with
  | nil => rfl
  | cons e rest ih =>
      obtain ⟨n, b⟩ := e
      simp only [List.map_cons, List.nodup_cons] at h
      rw [lastEntry?_cons, ih h.2]
      by_cases hk : n = k
      · subst hk
        rw [lookupCheck_eq_none_of_not_mem rest n h.1]
        simp [lookupCheck, List.find?_cons]
      · simp [lookupCheck, List.find?_cons, hk]

theorem lastEntry?_append (xs ys : CheckMap) (k : String) :
    lastEntry? (xs ++ ys) k = (lastEntry? ys k).or (lastEntry? xs k) := by
  simp only [lastEntry?, List.reverse_append, List.find?_append]
  cases hys : List.find? (fun e => e.1 = k) ys.reverse <;> simp [Option.or]

theorem lastRegistered_cons (m : CheckMap) (rest : List CheckMap) (k : String) :
    lastRegistered (m :: rest) k = (lastRegistered rest k).or (lookupCheck m k) := by
  simp only [lastRegistered, List.reverse_cons, List.findSome?_append]
  cases hrest : List.findSome? (fun m => lookupCheck m k) rest.reverse with
  | none =>
      simp only [Option.or, List.findSome?]
      cases lookupCheck m k <;> rfl
  | some v => simp [Option.or, List.findSome?]

theorem lastEntry?_flatten (ms : List CheckMap)
    (hnd : ∀ m ∈ ms, (m.map Prod.fst).Nodup) (k : String) :
    lastEntry? ms.flatten k = lastRegistered ms k := by
  induction ms with
  | nil => rfl
  | cons m rest ih =>
      rw [List.flatten_cons, lastEntry?_append, lastRegistered_cons,
          ih (fun m hm => hnd m (List.mem_cons_of_mem _ hm)),
          lastEntry?_eq_lookupCheck m (hnd m (List.mem_cons_self _ _))]

theorem erCalls_countP_zero (m : CheckMap) (n : String)
    (h : n ∉ m.map Prod.fst) :
    (erCalls m).countP (fun call => call.1 == n) = 0 := by
  induction m with
  | nil => rfl
  | cons e rest ih =>
      obtain ⟨k, b⟩ := e
      simp only [List.map_cons, List.mem_cons] at h
      push_neg at h
      cases hb : checkErrorMessage b with
      | none => simpa [erCalls_cons, hb] using ih h.2
      | some msg =>
          simpa [erCalls_cons, hb, List.countP_cons, Ne.symm h.1] using ih h.2

theorem erCalls_countP (m : CheckMap) (hm : (m.map Prod.fst).Nodup)
    (n : String) (b : CheckBehavior) (hmem : (n, b) ∈ m) :
    (erCalls m).countP (fun call => call.1 == n) =
      if b = CheckBehavior.ok then 0 else 1 := by
  induction m with
  | nil => simp at hmem
  | cons e rest ih =>
      obtain ⟨k, w⟩ := e
      simp only [List.map_cons, List.nodup_cons] at hm
      rcases List.mem_cons.mp hmem with heq | hrest
      · obtain ⟨hn, hw⟩ := Prod.mk.injEq .. ▸ heq
        subst hn hw
        have hzero := erCalls_countP_zero rest n hm.1
        cases b with
        | ok => simpa [erCalls_cons, checkErrorMessage] using hzero
        | fails msg =>
            simpa [erCalls_cons, checkErrorMessage, List.countP_cons] using hzero
        | panics v =>
            simpa [erCalls_cons, checkErrorMessage, List.countP_cons] using hzero
      · have hkn : k ≠ n := by
          intro hkn
          subst hkn
          exact hm.1 (List.mem_map.mpr ⟨(k, b), hrest, rfl⟩)
        cases hw : checkErrorMessage w with
        | none => simpa [erCalls_cons, hw] using ih hm.2 hrest
        | some msg =>
            simpa [erCalls_cons, hw, List.countP_cons, hkn] using ih hm.2 hrest

theorem handle_get (hasH : Bool) (req : Request) (ms : List CheckMap)
    (hget : req.method = "GET") :
    handle hasH req ms =
      ({ status := (runChecks hasH ms.flatten statusOK [] []).1,
         headers := handleHeaders,
         body := if queryGet req.query "full" ≠ "1" then "\x7b\x7d\n"
                 else encodeJSONObject (runChecks hasH ms.flatten statusOK [] []).2.1 },
       (runChecks hasH ms.flatten statusOK [] []).2.2) := by
  simp only [handle, hget, ne_eq, not_true_eq_false, if_false,
    evalCheckMaps_eq_runChecks, ite_not]

theorem countsAsFailure_not_ok : ¬ countsAsFailure CheckBehavior.ok := by
  simp [countsAsFailure_iff, checkResultString]

/-- Claim C1 (code bug).  In `collectChecks` the deferred recovery function
of a panicking check runs `wg.Done()` before it sends the recovered
outcome on `results`, while a separate goroutine runs
`wg.Wait(); close(results)`.  Starting from the panic path's initial state,
the schedule `wg.Done()` / `close(results)` / deferred send reaches a state
in which the sending goroutine has panicked on the closed channel — an
unrecovered "send on closed channel" panic that crashes the whole process.
So an abnormally terminating check CAN crash the evaluation pass, contrary
to the claim (and to the code's own evident intent of isolating panics). -/
theorem collectChecks_panic_crash_reachable :
    ∃ s : PanicRaceState, PanicRaceReaches panicRaceInit s ∧
      s.senderCrashed = true := by
  refine ⟨_, Relation.ReflTransGen.head (PanicRaceStep.wgDone panicRaceInit rfl)
      (Relation.ReflTransGen.head (PanicRaceStep.closeResults _ rfl rfl)
        (Relation.ReflTransGen.single (PanicRaceStep.sendOnClosed _ rfl rfl))), rfl⟩

/-- Claim C2, amended.  For every evaluated list of check maps and every GET
request, the response status is 503 exactly when some evaluated check
panics or fails with an error message other than `"OK"`; it is 200 exactly
when no evaluated check does so, and in particular for the empty check
set.  (Amendment forced by the counterexample: the drain loop compares
outcome strings against `"OK"`, so a check failing with error message
exactly `"OK"` is counted as a success, not as a Failure.) -/
theorem overall_status_unhealthy_iff (hasH : Bool) (req : Request)
    (ms : List CheckMap) (hget : req.method = "GET") :
    (((handle hasH req ms).1.status = statusServiceUnavailable) ↔
        ∃ m ∈ ms, ∃ e ∈ m, countsAsFailure e.2) ∧
    (((handle hasH req ms).1.status = statusOK) ↔
        ∀ m ∈ ms, ∀ e ∈ m, ¬ countsAsFailure e.2) ∧
    (ms.flatten = [] → (handle hasH req ms).1.status = statusOK) := by
  rw [handle_get hasH req ms hget]
  simp only
  have hcond : (∃ m ∈ ms, ∃ e ∈ m, countsAsFailure e.2) ↔
      ∃ e ∈ ms.flatten, checkResultString e.2 ≠ successCheckerResultString := by
    constructor
    · rintro ⟨m, hm, e, he, hf⟩
      exact ⟨e, List.mem_flatten.mpr ⟨m, hm, he⟩, (countsAsFailure_iff e.2).mp hf⟩
    · rintro ⟨e, he, hf⟩
      obtain ⟨m, hm, hem⟩ := List.mem_flatten.mp he
      exact ⟨m, hm, e, hem, (countsAsFailure_iff e.2).mpr hf⟩
  by_cases hfail : ∃ e ∈ ms.flatten, checkResultString e.2 ≠ successCheckerResultString
  · rw [runChecks_status_of_fail _ _ _ _ _ hfail]
    refine ⟨iff_of_true rfl (hcond.mpr hfail), ?_, ?_⟩
    · refine iff_of_false (by simp [statusOK, statusServiceUnavailable]) ?_
      intro hall
      obtain ⟨m, hm, e, he, hf⟩ := hcond.mpr hfail
      exact hall m hm e he hf
    · intro hemp
      rw [hemp] at hfail
      simp at hfail
  · push_neg at hfail
    rw [runChecks_status_of_ok _ _ _ _ _ hfail]
    refine ⟨?_, iff_of_true rfl ?_, fun _ => rfl⟩
    · refine iff_of_false (by simp [statusOK, statusServiceUnavailable]) ?_
      rw [hcond]
      push_neg
      exact hfail
    · intro m hm e he hf
      exact absurd ((countsAsFailure_iff e.2).mp hf)
        (by simpa using hfail e (List.mem_flatten.mpr ⟨m, hm, he⟩))

/-- Claim C2 witness: one failing check with message `"boom"` makes a GET
return 503. -/
theorem overall_status_unhealthy_iff_witness :
    (handle false { method := "GET", query := [] }
        [[("c", CheckBehavior.fails "boom")]]).1.status =
      statusServiceUnavailable :=
  (overall_status_unhealthy_iff false { method := "GET", query := [] }
      [[("c", CheckBehavior.fails "boom")]] rfl).1.mpr
    ⟨[("c", CheckBehavior.fails "boom")], by simp,
     ("c", CheckBehavior.fails "boom"), by simp,
     Or.inr ⟨"boom", rfl, by decide⟩⟩

/-- Claim C2 counterexample to the claim as stated: the single liveness
check `"c"` returns a Failure outcome whose message is `"OK"`, yet a GET on
the liveness endpoint reports 200 (Healthy), not 503 — the code treats this
Failure as a success because it only compares outcome strings against
`"OK"`. -/
theorem overall_status_fails_with_OK_counterexample :
    (LiveEndpoint { livenessChecks := [("c", CheckBehavior.fails "OK")],
                    readinessChecks := [], hasErrorHandler := false }
        { method := "GET", query := [] }).1.status ≠ statusServiceUnavailable ∧
    (LiveEndpoint { livenessChecks := [("c", CheckBehavior.fails "OK")],
                    readinessChecks := [], hasErrorHandler := false }
        { method := "GET", query := [] }).1.status = statusOK :=
  ⟨by decide, rfl⟩

/-- Claim C3, amended.  A check registered as a liveness check and panicking
or failing with a message other than `"OK"` makes both `/live` and `/ready`
report 503 (liveness checks are folded into every readiness evaluation);
when every liveness check publishes `"OK"` and some readiness check panics
or fails with a message other than `"OK"`, `/ready` reports 503 while
`/live` reports 200.  (Amendment forced by the counterexample: a check
failing with message exactly `"OK"` is counted as a success, so "failing"
must exclude that message.) -/
theorem liveness_readiness_composition (s : basicHandler) (req : Request)
    (hget : req.method = "GET") :
    (∀ n b, (n, b) ∈ s.livenessChecks → countsAsFailure b →
      (LiveEndpoint s req).1.status = statusServiceUnavailable ∧
      (ReadyEndpoint s req).1.status = statusServiceUnavailable) ∧
    ((∀ e ∈ s.livenessChecks, ¬ countsAsFailure e.2) →
      (∃ e ∈ s.readinessChecks, countsAsFailure e.2) →
      (ReadyEndpoint s req).1.status = statusServiceUnavailable ∧
      (LiveEndpoint s req).1.status = statusOK) := by
  simp only [LiveEndpoint, ReadyEndpoint]
  rw [handle_get _ _ _ hget, handle_get _ _ _ hget]
  simp only [List.flatten_cons, List.flatten_nil, List.append_nil]
  constructor
  · intro n b hmem hf
    constructor
    · exact runChecks_status_of_fail _ _ _ _ _
        ⟨(n, b), hmem, (countsAsFailure_iff b).mp hf⟩
    · exact runChecks_status_of_fail _ _ _ _ _
        ⟨(n, b), List.mem_append.mpr (Or.inr hmem), (countsAsFailure_iff b).mp hf⟩
  · intro hliveok hreadyfail
    obtain ⟨e, he, hf⟩ := hreadyfail
    constructor
    · exact runChecks_status_of_fail _ _ _ _ _
        ⟨e, List.mem_append.mpr (Or.inl he), (countsAsFailure_iff e.2).mp hf⟩
    · refine runChecks_status_of_ok _ _ _ _ _ ?_
      intro e' he'
      have := hliveok e' he'
      rw [countsAsFailure_iff] at this
      simpa using this

/-- Claim C3 witness: with a succeeding liveness check and a failing
readiness-only check, `/ready` reports 503 while `/live` reports 200. -/
theorem liveness_readiness_composition_witness :
    (ReadyEndpoint { livenessChecks := [("l", CheckBehavior.ok)],
                     readinessChecks := [("r", CheckBehavior.fails "bad")],
                     hasErrorHandler := false }
      { method := "GET", query := [] }).1.status = statusServiceUnavailable ∧
    (LiveEndpoint { livenessChecks := [("l", CheckBehavior.ok)],
                    readinessChecks := [("r", CheckBehavior.fails "bad")],
                    hasErrorHandler := false }
      { method := "GET", query := [] }).1.status = statusOK :=
  (liveness_readiness_composition
      { livenessChecks := [("l", CheckBehavior.ok)],
        readinessChecks := [("r", CheckBehavior.fails "bad")],
        hasErrorHandler := false }
      { method := "GET", query := [] } rfl).2
    (by
      intro e he
      simp only [List.mem_singleton] at he
      subst he
      exact countsAsFailure_not_ok)
    ⟨("r", CheckBehavior.fails "bad"), by simp,
     Or.inr ⟨"bad", rfl, by decide⟩⟩

/-- Claim C3 counterexample to the claim as stated: the check `"lc"` is
registered only as a liveness check and fails (with message `"OK"`), yet
`/live` does not report Unhealthy. -/
theorem liveness_only_fails_with_OK_counterexample :
    (LiveEndpoint { livenessChecks := [("lc", CheckBehavior.fails "OK")],
                    readinessChecks := [], hasErrorHandler := false }
        { method := "GET", query := [] }).1.status ≠ statusServiceUnavailable := by
  decide

/-- Claim C4.  For every evaluation pass over a list of check maps (each
with unique names, the Go map invariant), the produced result mapping has
no duplicate names, contains a name exactly when one of the merged maps
contains it, and maps each name to the outcome string of the check held by
the latest-processed map containing that name. -/
theorem result_mapping_merge (hasH : Bool) (ms : List CheckMap) (n : String)
    (hnd : ∀ m ∈ ms, (m.map Prod.fst).Nodup) :
    (((evalCheckMaps hasH ms statusOK [] []).2.1.map Prod.fst).Nodup) ∧
    ((n ∈ (evalCheckMaps hasH ms statusOK [] []).2.1.map Prod.fst) ↔
      ∃ m ∈ ms, n ∈ m.map Prod.fst) ∧
    (lookupResult (evalCheckMaps hasH ms statusOK [] []).2.1 n =
      (lastRegistered ms n).map checkResultString) := by
  rw [evalCheckMaps_eq_runChecks]
  refine ⟨runChecks_keys_nodup _ _ _ _ _ (by simp), ?_, ?_⟩
  · rw [runChecks_keys_mem]
    simp only [List.map_nil, List.not_mem_nil, false_or]
    constructor
    · intro hmem
      obtain ⟨e, he, hen⟩ := List.mem_map.mp hmem
      obtain ⟨m, hm, hem⟩ := List.mem_flatten.mp he
      exact ⟨m, hm, List.mem_map.mpr ⟨e, hem, hen⟩⟩
    · rintro ⟨m, hm, hmem⟩
      obtain ⟨e, he, hen⟩ := List.mem_map.mp hmem
      exact List.mem_map.mpr ⟨e, List.mem_flatten.mpr ⟨m, hm, he⟩, hen⟩
  · rw [runChecks_lookup, lastEntry?_flatten ms hnd n]
    simp [lookupResult]

/-- Claim C4 witness: `"b"` occurs in both merged maps; the entry of the
later-processed map wins. -/
theorem result_mapping_merge_witness :
    lookupResult (evalCheckMaps false
        [[("a", CheckBehavior.ok), ("b", CheckBehavior.fails "x")],
         [("b", CheckBehavior.ok)]] statusOK [] []).2.1 "b" = some "OK" :=
  (result_mapping_merge false
      [[("a", CheckBehavior.ok), ("b", CheckBehavior.fails "x")],
       [("b", CheckBehavior.ok)]] "b" (by decide)).2.2.trans (by rfl)

/-- Claim C5.  A request to `/live` or `/ready` whose method is not GET is
answered by `http.Error` with status 405 before any check map is touched:
the response is a constant independent of the registry, no error-handler
invocation happens, and the same response results for every registry
state. -/
theorem non_get_rejected (s : basicHandler) (req : Request)
    (h : req.method ≠ "GET") :
    LiveEndpoint s req =
      (httpError "method not allowed" statusMethodNotAllowed, []) ∧
    ReadyEndpoint s req =
      (httpError "method not allowed" statusMethodNotAllowed, []) ∧
    (LiveEndpoint s req).1.status = statusMethodNotAllowed ∧
    (ReadyEndpoint s req).1.status = statusMethodNotAllowed ∧
    (∀ s' : basicHandler, LiveEndpoint s' req = LiveEndpoint s req ∧
      ReadyEndpoint s' req = ReadyEndpoint s req) := by
  have hl : ∀ s' : basicHandler, LiveEndpoint s' req =
      (httpError "method not allowed" statusMethodNotAllowed, []) := by
    intro s'
    simp only [LiveEndpoint, handle]
    rw [if_pos h]
  have hr : ∀ s' : basicHandler, ReadyEndpoint s' req =
      (httpError "method not allowed" statusMethodNotAllowed, []) := by
    intro s'
    simp only [ReadyEndpoint, handle]
    rw [if_pos h]
  refine ⟨hl s, hr s, ?_, ?_, fun s' => ⟨(hl s').trans (hl s).symm, (hr s').trans (hr s).symm⟩⟩
  · rw [hl s]
    rfl
  · rw [hr s]
    rfl

/-- Claim C5 witness: a POST with no checks registered yields 405 on
`/live`. -/
theorem non_get_rejected_witness :
    (LiveEndpoint NewHandler { method := "POST", query := [] }).1.status =
      statusMethodNotAllowed :=
  (non_get_rejected NewHandler { method := "POST", query := [] }
      (by decide)).2.2.1

/-- Claim C6.  In every evaluation pass: with a registered callback the
error-handler invocations are exactly one `(name, message)` per failing or
panicking entry of the merged maps (and, per map with unique names, a
failing or panicking check is reported exactly once and a succeeding check
never); with no callback there are no invocations; and the computed status
and result mapping are identical whether or not a callback is
registered. -/
theorem error_reporter_contract (ms : List CheckMap)
    (hnd : ∀ m ∈ ms, (m.map Prod.fst).Nodup) :
    ((evalCheckMaps true ms statusOK [] []).2.2 = erCalls ms.flatten) ∧
    ((evalCheckMaps false ms statusOK [] []).2.2 = []) ∧
    (∀ m ∈ ms, ∀ n b, (n, b) ∈ m →
      (erCalls m).countP (fun call => call.1 == n) =
        if b = CheckBehavior.ok then 0 else 1) ∧
    (∀ hh hh' : Bool, (evalCheckMaps hh ms statusOK [] []).1 =
      (evalCheckMaps hh' ms statusOK [] []).1) ∧
    (∀ hh hh' : Bool, (evalCheckMaps hh ms statusOK [] []).2.1 =
      (evalCheckMaps hh' ms statusOK [] []).2.1) := by
  refine ⟨?_, ?_, ?_, ?_, ?_⟩
  · rw [evalCheckMaps_eq_runChecks, runChecks_calls]
    simp
  · rw [evalCheckMaps_eq_runChecks, runChecks_calls]
    simp
  · intro m hm n b hmem
    exact erCalls_countP m (hnd m hm) n b hmem
  · intro hh hh'
    rw [evalCheckMaps_eq_runChecks, evalCheckMaps_eq_runChecks]
    exact runChecks_status_indep hh hh' _ _ _ _ _ _
  · intro hh hh'
    rw [evalCheckMaps_eq_runChecks, evalCheckMaps_eq_runChecks]
    exact runChecks_results_indep hh hh' _ _ _ _ _ _

/-- Claim C6 witness: one failing and one succeeding check; the callback is
invoked exactly once, for the failing one. -/
theorem error_reporter_contract_witness :
    (evalCheckMaps true
        [[("f", CheckBehavior.fails "boom"), ("g", CheckBehavior.ok)]]
        statusOK [] []).2.2 = [("f", "boom")] ∧
    (erCalls [("f", CheckBehavior.fails "boom"), ("g", CheckBehavior.ok)]).countP
        (fun call => call.1 == "f") = 1 := by
  have h := error_reporter_contract
      [[("f", CheckBehavior.fails "boom"), ("g", CheckBehavior.ok)]] (by decide)
  constructor
  · rw [h.1]
    rfl
  · have hc := h.2.2.1 [("f", CheckBehavior.fails "boom"), ("g", CheckBehavior.ok)]
        (by simp) "f" (CheckBehavior.fails "boom") (by simp)
    rw [hc]
    decide

/-- Claim C7, amended.  Every GET request handled by `/live` or `/ready`
carries exactly the four headers `Content-Type: application/json;
charset=utf-8`, `Cache-Control: no-cache, no-store, must-revalidate`,
`Pragma: no-cache` and `Expires: 0`, regardless of verbosity mode and
status.  (Amendment forced by the counterexample: for a non-GET method the
code returns through `http.Error` before these headers are set, so "for
every request ... regardless of method" is false; the guarantee holds for
GET requests.) -/
theorem response_headers_get (s : basicHandler) (req : Request)
    (hget : req.method = "GET") :
    (LiveEndpoint s req).1.headers = handleHeaders ∧
    (ReadyEndpoint s req).1.headers = handleHeaders ∧
    ("Content-Type", "application/json; charset=utf-8") ∈ handleHeaders ∧
    ("Cache-Control", "no-cache, no-store, must-revalidate") ∈ handleHeaders ∧
    ("Pragma", "no-cache") ∈ handleHeaders ∧
    ("Expires", "0") ∈ handleHeaders := by
  refine ⟨?_, ?_, by simp [handleHeaders], by simp [handleHeaders],
    by simp [handleHeaders], by simp [handleHeaders]⟩
  · simp only [LiveEndpoint]
    rw [handle_get _ _ _ hget]
  · simp only [ReadyEndpoint]
    rw [handle_get _ _ _ hget]

/-- Claim C7 witness: a plain GET on `/live` of a fresh handler carries the
JSON content-type header. -/
theorem response_headers_get_witness :
    (LiveEndpoint NewHandler { method := "GET", query := [] }).1.headers =
      handleHeaders :=
  (response_headers_get NewHandler { method := "GET", query := [] } rfl).1

/-- Claim C7 counterexample to the claim as stated: a POST request is
answered through `http.Error`, whose headers are `text/plain` and
`nosniff` — the JSON content-type and the no-cache headers are absent, so
the claimed "regardless of method" fails. -/
theorem response_headers_non_get_counterexample :
    ("Content-Type", "application/json; charset=utf-8") ∉
      (LiveEndpoint NewHandler { method := "POST", query := [] }).1.headers ∧
    ("Cache-Control", "no-cache, no-store, must-revalidate") ∉
      (LiveEndpoint NewHandler { method := "POST", query := [] }).1.headers ∧
    ("Pragma", "no-cache") ∉
      (LiveEndpoint NewHandler { method := "POST", query := [] }).1.headers ∧
    ("Expires", "0") ∉
      (LiveEndpoint NewHandler { method := "POST", query := [] }).1.headers := by
  decide

/-- Claim C8.  Every valid GET on `/live` or `/ready` whose query does not
set `full=1` answers with the literal three-byte body consisting of the
two braces and a newline, for every registry state and status. -/
theorem non_full_body (s : basicHandler) (req : Request)
    (hget : req.method = "GET") (hfull : queryGet req.query "full" ≠ "1") :
    (LiveEndpoint s req).1.body = "\x7b\x7d\n" ∧
    (ReadyEndpoint s req).1.body = "\x7b\x7d\n" ∧
    ("\x7b\x7d\n" : String).length = 3 := by
  refine ⟨?_, ?_, rfl⟩
  · simp only [LiveEndpoint]
    rw [handle_get _ _ _ hget]
    simp [hfull]
  · simp only [ReadyEndpoint]
    rw [handle_get _ _ _ hget]
    simp [hfull]

/-- Claim C8 witness: a failing check still yields the minimal body when
`full` is not requested. -/
theorem non_full_body_witness :
    (LiveEndpoint { livenessChecks := [("c", CheckBehavior.fails "boom")],
                    readinessChecks := [], hasErrorHandler := false }
      { method := "GET", query := [] }).1.body = "\x7b\x7d\n" :=
  (non_full_body { livenessChecks := [("c", CheckBehavior.fails "boom")],
                   readinessChecks := [], hasErrorHandler := false }
    { method := "GET", query := [] } rfl (by decide)).1

/-- Claim C9.  An evaluation pass only reads the registry: in explicit
state-passing form both endpoint handlers return the handler state they
received, so the liveness map, the readiness map and the error-handler
binding after any request are exactly what they were before it (only the
`Add*` registration operations produce a changed state). -/
theorem evaluation_pass_frame (s : basicHandler) (req : Request) :
    (LiveEndpointSt s req).2 = s ∧ (ReadyEndpointSt s req).2 = s ∧
    (LiveEndpointSt s req).2.livenessChecks = s.livenessChecks ∧
    (LiveEndpointSt s req).2.readinessChecks = s.readinessChecks ∧
    (LiveEndpointSt s req).2.hasErrorHandler = s.hasErrorHandler ∧
    (ReadyEndpointSt s req).2.livenessChecks = s.livenessChecks ∧
    (ReadyEndpointSt s req).2.readinessChecks = s.readinessChecks ∧
    (ReadyEndpointSt s req).2.hasErrorHandler = s.hasErrorHandler :=
  ⟨rfl, rfl, rfl, rfl, rfl, rfl, rfl, rfl⟩

/-- Claim C10.  For every timeout value, the check built by
`DatabasePingCheck` over a nil database handle returns, when invoked, the
explicit failure `"database is nil"`; it does not terminate abnormally. -/
theorem databasePingCheck_nil_database (timeout : Nat) :
    HealthcheckDB.DatabasePingCheck none timeout =
      CheckBehavior.fails "database is nil" ∧
    ∀ v, HealthcheckDB.DatabasePingCheck none timeout ≠
      CheckBehavior.panics v :=
  ⟨rfl, fun _ h => CheckBehavior.noConfusion h⟩

end Healthcheck
